import Mathlib

/-
  Verification of the ccr-skills repository core algorithms.

  Shallow embedding of:
  - generateModelAliases / generateProviderAliases (src/skills/ccr-model/ccr-model.js:341-441)
  - buildDynamicAliases (ccr-model.js:446-472)
  - fuzzyMatch (ccr-model.js:494-584)
  - getCurrentProjectId (ccr-model.js:694-741) and getProjectId (src/hooks/session-start.js:112-135)
  - resolveSessionId (ccr-model.js:753-770) and getSessionIdFromCache (ccr-model.js:785-823)
  - getEffectiveConfig (ccr-model.js:1264-1318) and getEffectiveRouter (session-start.js:141-166)
  - the Router mutation of setModel (ccr-model.js:1034-1056)

  JS strings are modelled as List Char; JS objects used as string maps are
  modelled as association lists with unique keys (insertion order preserved,
  as in JS); filesystem and process probes are explicit parameters.
-/

/- JS strings as lists of characters. -/
abbrev Str : Type := List Char

/- Conversion from Lean string literals. -/
def str (s : String) : Str := s.data

/- Characters matched by the JS regex class \s (ASCII whitespace forms). -/
def isWsChar (c : Char) : Bool :=
  c == ' ' || c == '\t' || c == '\n' || c == '\r' || c == '\x0b' || c == '\x0c'

/- Characters matched by the JS regex class [-_\s]. -/
def isSepChar (c : Char) : Bool :=
  c == '-' || c == '_' || isWsChar c

/- Characters matched by the JS regex class [-_\s\.]. -/
def isSepDotChar (c : Char) : Bool :=
  isSepChar c || c == '.'

/- JS String.prototype.toLowerCase on ASCII data. -/
def toLowerStr (s : Str) : Str := s.map Char.toLower

/- JS s.replace(regex-class, ""): delete all characters matching p. -/
def removeChars (p : Char → Bool) (s : Str) : Str := s.filter (fun c => !p c)

/- JS s.replace(/\./g, ""). -/
def stripDots (s : Str) : Str := removeChars (fun c => c == '.') s

/- JS hay.includes(pat): substring containment. -/
def jsIncludes (hay pat : Str) : Bool :=
  match hay with
  | [] => pat.isEmpty
  | c :: t => pat.isPrefixOf (c :: t) || jsIncludes t pat

/- JS hay.startsWith(pat). -/
def jsStartsWith (hay pat : Str) : Bool := pat.isPrefixOf hay

/- JS hay.endsWith(pat). -/
def jsEndsWith (hay pat : Str) : Bool := pat.isSuffixOf hay

/- JS s.split(regex-class-plus).filter(p => p): maximal runs of characters
   not matching p (the source always filters out the empty segments). -/
def splitTokens (p : Char → Bool) (s : Str) : List Str :=
  (s.splitOnP p).filter (fun t => !t.isEmpty)

/- JS (s.match(dash-regex-global) || []).length: number of dashes in s. -/
def dashCount (s : Str) : Nat := (s.filter (fun c => c == '-')).length

/- Node path.basename for POSIX paths. -/
def basename (s : Str) : Str :=
  if s.all (fun c => c == '/') then
    (match s with
     | [] => []
     | _ => ['/'])
  else
    let t := (s.reverse.dropWhile (fun c => c == '/')).reverse
    (t.reverse.takeWhile (fun c => !(c == '/'))).reverse

/- JS object used as a map: association list with unique keys.
   Property read obj[k]. -/
def objGet {β : Type} (m : List (Str × β)) (k : Str) : Option β :=
  match m with
  | [] => none
  | (k2, v2) :: t => if k2 = k then some v2 else objGet t k

/- JS property write obj[k] = v: replaces the value in place when the key
   exists, appends the key otherwise (JS insertion-order semantics). -/
def objSet {β : Type} (m : List (Str × β)) (k : Str) (v : β) : List (Str × β) :=
  match m with
  | [] => [(k, v)]
  | (k2, v2) :: t => if k2 = k then (k, v) :: t else (k2, v2) :: objSet t k v

/- JS `if (!obj[k]) obj[k] = v`: write only when the key is absent or its
   value is a falsy string (the empty string). -/
def objSetIfFalsy (m : List (Str × Str)) (k v : Str) : List (Str × Str) :=
  match objGet m k with
  | some w => if w.isEmpty then objSet m k v else m
  | none => objSet m k v

/- JS Set.add followed by spreading into an array: append when absent. -/
def addAlias (s : List Str) (a : Str) : List Str :=
  if a ∈ s then s else s ++ [a]

/- charAt(0) of every token, joined (used for abbreviation forms). -/
def joinFirsts (parts : List Str) : Str :=
  (parts.map (fun p => p.take 1)).flatten

/- JS regex test /^\d+$/. -/
def isDigitsStr (s : Str) : Bool := !s.isEmpty && s.all (fun c => c.isDigit)

/- JS regex test /^(\d+(?:\.\d+)?)$/. -/
def isVersionStr (s : Str) : Bool :=
  match s.splitOnP (fun c => c == '.') with
  | [a] => isDigitsStr a
  | [a, b] => isDigitsStr a && isDigitsStr b
  | _ => false

/- The version-suffix aliases of generateModelAliases
   (ccr-model.js:357-369): added when the last token is a bare version. -/
def gmaVersionAliases (parts : List Str) (s : List Str) : List Str :=
  let lastPart := parts.getLastD []
  if isVersionStr lastPart then
    let providerAbbr := joinFirsts parts.dropLast
    let t1 := addAlias s (providerAbbr ++ lastPart)
    let t2 := addAlias t1 (providerAbbr ++ stripDots lastPart)
    if 2 ≤ parts.length then
      addAlias (addAlias t2 ((parts.headD []) ++ lastPart))
        ((parts.headD []) ++ stripDots lastPart)
    else t2
  else s

/- The model-series-version aliases of generateModelAliases
   (ccr-model.js:372-383): added when there are at least 3 tokens. -/
def gmaSeriesAliases (parts : List Str) (s : List Str) : List Str :=
  let lastPart := parts.getLastD []
  if 3 ≤ parts.length then
    let seriesAbbr := joinFirsts (parts.drop 1)
    let t1 := addAlias s ((parts.headD []).take 1 ++ seriesAbbr)
    if isDigitsStr lastPart then
      addAlias (addAlias t1 ((parts.getD 1 []) ++ (parts.getD 2 [])))
        ((parts.getD 1 []).take 1 ++ (parts.getD 2 []))
    else t1
  else s

/- The two-part-name aliases of generateModelAliases
   (ccr-model.js:386-389): added when there are exactly 2 tokens. -/
def gmaTwoPartAliases (parts : List Str) (s : List Str) : List Str :=
  if parts.length = 2 then
    addAlias (addAlias s ((parts.headD []).take 1 ++ (parts.getD 1 [])))
      ((parts.headD []).take 1 ++ stripDots (parts.getD 1 []))
  else s

/- Block 2 of generateModelAliases (ccr-model.js:351-390): the abbreviation
   aliases, added when parts.length >= 2: initialism first, then the
   version-suffix, series-version and two-part blocks in source order. -/
def gmaAbbrevs (parts : List Str) (s : List Str) : List Str :=
  let abbr := joinFirsts parts
  let s1 := if 2 ≤ abbr.length then addAlias s abbr else s
  gmaTwoPartAliases parts (gmaSeriesAliases parts (gmaVersionAliases parts s1))

/- The alias accumulator of generateModelAliases just before step 3
   ("Remove dots from all aliases", ccr-model.js:393): the no-separator
   form plus the step-2 abbreviation aliases. -/
def gmaPreDots (modelName : Str) : List Str :=
  let lower := toLowerStr modelName
  let noSep := removeChars isSepChar lower
  let parts := splitTokens isSepChar lower
  let s0 := addAlias [] noSep
  if 2 ≤ parts.length then gmaAbbrevs parts s0 else s0

/- generateModelAliases (ccr-model.js:341-404). -/
def generateModelAliases (modelName : Str) : List Str :=
  let lower := toLowerStr modelName
  let s1 := gmaPreDots modelName
  let s2 := (s1.map stripDots).foldl addAlias s1
  let s3 := addAlias s2 lower
  if '-' ∈ lower then
    addAlias (addAlias s3 (removeChars (fun c => c == '-') lower))
      (lower.map (fun c => if c == '-' then '_' else c))
  else s3

/- The fixed short-form enrichment table of generateProviderAliases
   (ccr-model.js:424-432), in JS object insertion order. -/
def providerShortForms : List (Str × List Str) :=
  [(str "zhipu", [str "zp"]),
   (str "minimax", [str "mm", str "min"]),
   (str "openrouter", [str "or"]),
   (str "doubao", [str "db"]),
   (str "deepseek", [str "ds"]),
   (str "claude", [str "cl"]),
   (str "anthropic", [str "ant", str "ap"])]

/- generateProviderAliases (ccr-model.js:409-441). -/
def generateProviderAliases (providerName : Str) : List Str :=
  let lower := toLowerStr providerName
  let noSep := removeChars isSepChar lower
  let s0 := addAlias (addAlias [] lower) noSep
  let words := splitTokens isSepChar providerName
  let s1 :=
    if 1 < words.length then
      addAlias s0 (toLowerStr (joinFirsts words))
    else s0
  providerShortForms.foldl
    (fun s kv => if jsIncludes lower kv.1 then kv.2.foldl addAlias s else s) s1

/- Stable descending insertion into a list, by a key into a linear order:
   x is placed before the first element whose key is not larger.  This is
   the stable-sort semantics of JS Array.prototype.sort with the comparator
   (a, b) => key(b) - key(a). -/
def insertDescBy {α β : Type} [LinearOrder β] (key : α → β) (x : α) : List α → List α
  | [] => [x]
  | y :: ys => if key y ≤ key x then x :: y :: ys else y :: insertDescBy key x ys

/- Stable descending sort by a key (insertion sort). -/
def sortDescBy {α β : Type} [LinearOrder β] (key : α → β) : List α → List α
  | [] => []
  | x :: xs => insertDescBy key x (sortDescBy key xs)

/- A (provider, model) pair of the registry with its fullName, as built by
   getAllModels (ccr-model.js:310-325). -/
structure ModelEntry where
  provider : Str
  model : Str
  fullName : Str
deriving DecidableEq, Repr

/- One entry of config.Providers: a provider name and its model list. -/
structure ProviderCfg where
  name : Str
  models : List Str
deriving DecidableEq, Repr

/- getAllModels (ccr-model.js:310-325): flatten the provider registry. -/
def getAllModels (providers : List ProviderCfg) : List ModelEntry :=
  providers.flatMap (fun p =>
    p.models.map (fun m => ModelEntry.mk p.name m (p.name ++ '/' :: m)))

/- The body of the inner model loop of buildDynamicAliases
   (ccr-model.js:454-468): guarded inserts for every generated alias, then
   two unconditional writes for the lowercase and no-separator model names. -/
def addModelAliases (pName : Str) (m : List (Str × Str)) (model : Str) : List (Str × Str) :=
  let fullName := pName ++ '/' :: model
  let modelAls := generateModelAliases model
  let m1 := modelAls.foldl (fun acc a => objSetIfFalsy acc a fullName) m
  let m2 := objSet m1 (toLowerStr model) fullName
  objSet m2 (removeChars isSepChar (toLowerStr model)) fullName

/- buildDynamicAliases (ccr-model.js:446-472). -/
def buildDynamicAliases (providers : List ProviderCfg) :
    List (Str × Str) × List (Str × List Str) :=
  providers.foldl
    (fun acc p =>
      let pa := objSet acc.2 p.name (generateProviderAliases p.name)
      let ma := p.models.foldl (addModelAliases p.name) acc.1
      (ma, pa))
    ([], [])

/- JS a || b where a is a possibly-undefined string property: the empty
   string is falsy. -/
def jsOrOpt (a b : Option Str) : Option Str :=
  match a with
  | some v => if v.isEmpty then b else some v
  | none => b

/- A scored candidate { ...m, score } of fuzzyMatch.  Every score the JS
   code can produce is a non-negative integer: the ladder rules use the
   integer constants 100..60, and the fallback multiplies by 20 a count
   that grows in steps of 1 or 0.5, so the product is a multiple of 10.
   The score is therefore modelled as a Nat. -/
structure Scored where
  entry : ModelEntry
  score : Nat
deriving DecidableEq, Repr

/- The score of one candidate in fuzzyMatch (ccr-model.js:503-580):
   the scoring ladder, first matching rule wins. -/
def scoreModel (providerAliases : List (Str × List Str)) (aliasMatch : Option Str)
    (lowerQuery noSepQuery : Str) (m : ModelEntry) : Nat :=
  let fullName := toLowerStr m.fullName
  let provider := toLowerStr m.provider
  let model := toLowerStr m.model
  let modelNoSep := removeChars isSepDotChar model
  let modelAls := generateModelAliases m.model
  let pAls := (objGet providerAliases m.provider).getD (generateProviderAliases m.provider)
  if aliasMatch = some m.fullName then 100
  else if fullName = lowerQuery then 100
  else if model = lowerQuery ∨ modelNoSep = noSepQuery then 95
  else if noSepQuery ∈ modelAls ∨ lowerQuery ∈ modelAls then 92
  else if '/' ∈ lowerQuery then
    let comps := lowerQuery.splitOnP (fun c => c == '/')
    let p := comps.getD 0 []
    let mdl := comps.getD 1 []
    if jsIncludes provider p && jsIncludes model mdl then 90
    else if pAls.any (fun a => jsIncludes a p) && jsIncludes model mdl then 85
    else 0
  else if jsIncludes modelNoSep noSepQuery then 85
  else if jsIncludes fullName lowerQuery then 80
  else if jsIncludes model lowerQuery then 75
  else if jsStartsWith fullName lowerQuery || jsStartsWith modelNoSep noSepQuery then 70
  else if jsStartsWith model lowerQuery then 68
  else if noSepQuery ∈ pAls ∨ lowerQuery ∈ pAls then 65
  else if provider = lowerQuery ∨ jsIncludes provider lowerQuery then 60
  else
    let queryParts :=
      (noSepQuery.splitOnP (fun c => isWsChar c || c == '-' || c == '_' || c == '/')).filter
        (fun t => 2 ≤ t.length)
    let matchCountHalves := queryParts.foldl
      (fun (acc : Nat) part =>
        if jsIncludes modelNoSep part || modelAls.any (fun a => jsIncludes a part) then acc + 2
        else if pAls.any (fun a => jsIncludes a part) then acc + 1
        else acc) 0
    matchCountHalves * 10

/- The scored candidate list of fuzzyMatch, in catalog order, before
   filtering and sorting (ccr-model.js:494-580). -/
def scoredList (providers : List ProviderCfg) (models : List ModelEntry) (query : Str) :
    List Scored :=
  let maps := buildDynamicAliases providers
  let lowerQuery := toLowerStr query
  let noSepQuery := removeChars isSepDotChar lowerQuery
  let aliasMatch := jsOrOpt (objGet maps.1 noSepQuery) (objGet maps.1 lowerQuery)
  models.map (fun m => Scored.mk m (scoreModel maps.2 aliasMatch lowerQuery noSepQuery m))

/- fuzzyMatch (ccr-model.js:494-584): score every candidate against the
   alias data built from the provider registry, drop scores of 0, and
   stable-sort descending by score. -/
def fuzzyMatch (providers : List ProviderCfg) (models : List ModelEntry) (query : Str) :
    List Scored :=
  sortDescBy (fun s => s.score)
    ((scoredList providers models query).filter (fun s => decide (0 < s.score)))

/- JS truthiness of a string|null|undefined value: the empty string,
   null and undefined are falsy. -/
def jsTruthyOpt (o : Option Str) : Bool :=
  match o with
  | some v => !v.isEmpty
  | none => false

/- The source tag of resolveSessionId (ccr-model.js:753-770). -/
inductive SessionSource where
  | env
  | cache
  | mtime
deriving DecidableEq, Repr

/- resolveSessionId (ccr-model.js:753-770).  The three strategies
   (environment variable, cache walk, mtime scan) are passed as the values
   they produce; each is consulted with JS truthiness, first success wins. -/
def resolveSessionId (envVar cachedId mtimeId : Option Str) : Option (Str × SessionSource) :=
  if jsTruthyOpt envVar then some (envVar.getD [], SessionSource.env)
  else if jsTruthyOpt cachedId then some (cachedId.getD [], SessionSource.cache)
  else if jsTruthyOpt mtimeId then some (mtimeId.getD [], SessionSource.mtime)
  else none

/- A parsed session cache record {session_id, pid, cwd, ts}; only the
   fields the reader consults are modelled. -/
structure CacheRecord where
  session_id : Str
  pid : Nat
deriving DecidableEq, Repr

/- The state of the cache file for one ancestor PID: no file, a file that
   fails JSON.parse, or a parsed record. -/
inductive CacheFile where
  | absent
  | malformed
  | stored (r : CacheRecord)
deriving DecidableEq, Repr

/- The ancestry loop of getSessionIdFromCache (ccr-model.js:791-820).
   files: cache-file state per PID; parentOf: the ps ppid lookup (none on
   failure); alive: the signal-zero probe process.kill(pid, 0).
   Returns the found session id (if any) and the list of cache files the
   walk deleted (the unlinkSync calls). -/
def cacheWalk (files : Nat → CacheFile) (parentOf : Nat → Option Nat)
    (alive : Nat → Bool) : Nat → Nat → Option Str × List Nat
  | 0, _ => (none, [])
  | fuel + 1, pid =>
    if pid ≤ 1 then (none, [])
    else
      match files pid with
      | CacheFile.stored r =>
        if alive r.pid then (some r.session_id, []) else (none, [pid])
      | CacheFile.malformed => (none, [])
      | CacheFile.absent =>
        match parentOf pid with
        | some pp => cacheWalk files parentOf alive fuel pp
        | none => (none, [])

/- getSessionIdFromCache (ccr-model.js:785-823): guard on the cache
   directory, then walk up to maxDepth = 5 ancestors starting at the
   parent PID. -/
def getSessionIdFromCache (dirExists : Bool) (files : Nat → CacheFile)
    (parentOf : Nat → Option Nat) (alive : Nat → Bool) (startPid : Nat) :
    Option Str × List Nat :=
  if dirExists then cacheWalk files parentOf alive 5 startPid else (none, [])

/- The cwd encoding of getCurrentProjectId (ccr-model.js:705) and
   getProjectId (session-start.js:116): drop one leading slash, replace
   every slash by a dash, prepend a dash. -/
def encodeCwd (cwd : Str) : Str :=
  let stripped :=
    match cwd with
    | '/' :: t => t
    | other => other
  '-' :: stripped.map (fun c => if c == '/' then '-' else c)

/- The basename-suffix candidate list of the projectId fallback
   (ccr-model.js:713-722, session-start.js:121-124): known project names
   ending in "-basename(cwd)" that are directories, in listing order. -/
def candidatesOf (cwd : Str) (projects : List Str) (isDir : Str → Bool) : List Str :=
  projects.filter (fun p => jsEndsWith p ('-' :: basename cwd) && isDir p)

/- The shared body of getCurrentProjectId (ccr-model.js:701-740) and
   getProjectId (session-start.js:115-134): exact encoded match first,
   then the basename-suffix fallback, ties resolved by the stable
   descending sort on dash count. -/
def projectIdCore (cwd : Str) (projects : List Str) (isDir : Str → Bool) : Option Str :=
  let encodedCwd := encodeCwd cwd
  if encodedCwd ∈ projects then some encodedCwd
  else
    let candidates := candidatesOf cwd projects isDir
    if candidates.length = 1 then some (candidates.headD [])
    else if 1 < candidates.length then
      some ((sortDescBy (fun p => dashCount p) candidates).headD [])
    else none

/- getCurrentProjectId (ccr-model.js:694-741).  dirExists models
   fs.existsSync(CLAUDE_PROJECTS_DIR); projects the readdirSync listing;
   isDir the statSync(...).isDirectory() probe. -/
def getCurrentProjectId (dirExists : Bool) (cwd : Str) (projects : List Str)
    (isDir : Str → Bool) : Option Str :=
  if dirExists then projectIdCore cwd projects isDir else none

/- getProjectId (session-start.js:112-135): same lookup with an extra
   falsy-cwd guard. -/
def getProjectId (dirExists : Bool) (cwd : Str) (projects : List Str)
    (isDir : Str → Bool) : Option Str :=
  if cwd.isEmpty || !dirExists then none
  else projectIdCore cwd projects isDir

/- A Router object: role name to "provider,model" string, in JS key order. -/
abbrev RouterObj : Type := List (Str × Str)

/- The state of one configuration layer file: missing, failing JSON.parse,
   or parsed with an optional Router section (none models an absent or
   falsy Router property). -/
inductive LayerFile where
  | absent
  | malformed
  | parsed (router : Option RouterObj)
deriving DecidableEq

/- The layer that won resolution. -/
inductive Level where
  | globalL
  | projectL
  | sessionL
deriving DecidableEq, Repr

/- The result of getEffectiveConfig (ccr-model.js:1270-1317). -/
structure Effective where
  level : Level
  config : RouterObj
  projectId : Option Str
  sessionId : Option Str
deriving DecidableEq, Repr

/- getEffectiveConfig (ccr-model.js:1264-1318).  globalDoc is the parse
   result of the global config file (outer none: unreadable; inner none:
   no Router property); project and session layers are adopted when their
   parsed Router object has at least one key. -/
def getEffectiveConfig (globalDoc : Option (Option RouterObj))
    (projectId sessionId : Option Str) (projectFile sessionFile : LayerFile) : Effective :=
  let e0 : Effective :=
    ⟨Level.globalL,
     (match globalDoc with
      | some r => r.getD []
      | none => []), none, none⟩
  let e1 :=
    if jsTruthyOpt projectId then
      match projectFile with
      | LayerFile.parsed (some r) =>
        if r.isEmpty then e0 else ⟨Level.projectL, r, projectId, none⟩
      | _ => e0
    else e0
  if jsTruthyOpt projectId && jsTruthyOpt sessionId then
    match sessionFile with
    | LayerFile.parsed (some r) =>
      if r.isEmpty then e1 else ⟨Level.sessionL, r, projectId, sessionId⟩
    | _ => e1
  else e1

/- The result of getEffectiveRouter (session-start.js:141-166). -/
structure EffRouter where
  level : Level
  router : RouterObj
deriving DecidableEq, Repr

/- getEffectiveRouter (session-start.js:141-166): same hierarchy, but a
   layer is adopted only when some Router value is a truthy (non-empty)
   string. -/
def getEffectiveRouter (globalDoc : Option (Option RouterObj))
    (sessionId projectId : Option Str) (projectFile sessionFile : LayerFile) : EffRouter :=
  let e0 : EffRouter :=
    ⟨Level.globalL,
     (match globalDoc with
      | some r => r.getD []
      | none => [])⟩
  let e1 :=
    if jsTruthyOpt projectId then
      match projectFile with
      | LayerFile.parsed (some r) =>
        if r.any (fun p => !p.2.isEmpty) then ⟨Level.projectL, r⟩ else e0
      | _ => e0
    else e0
  if jsTruthyOpt projectId && jsTruthyOpt sessionId then
    match sessionFile with
    | LayerFile.parsed (some r) =>
      if r.any (fun p => !p.2.isEmpty) then ⟨Level.sessionL, r⟩ else e1
    | _ => e1
  else e1

/- The six valid roles of setModel (ccr-model.js:1031). -/
def validRoles : List Str :=
  [str "default", str "think", str "longContext", str "webSearch",
   str "background", str "image"]

/- A parsed global config document: the Router property plus every other
   top-level field (Providers, HOST, PORT, ...), kept abstract. -/
structure CCRDoc (α : Type) where
  Router : Option RouterObj
  rest : α

/- The all-roles branch of setModel (ccr-model.js:1046-1052), in source
   assignment order. -/
def setAllRoles (router : RouterObj) (v : Str) : RouterObj :=
  objSet (objSet (objSet (objSet (objSet (objSet router (str "default") v)
    (str "think") v) (str "background") v) (str "longContext") v)
    (str "webSearch") v) (str "image") v

/- The configuration mutation of setModel (ccr-model.js:1038-1056): the
   document written back by saveCCRConfig, given the parsed document, the
   parsed --role= option (none when no flag) and the "provider,model"
   string.  A truthy valid role updates that role only; a falsy role sets
   all six roles; a truthy invalid role leaves the Router unchanged. -/
def setModelUpdate {α : Type} (config : CCRDoc α) (role : Option Str)
    (ccrFormat : Str) : CCRDoc α :=
  let router := config.Router.getD []
  let router2 :=
    if jsTruthyOpt role && decide (role.getD [] ∈ validRoles) then
      objSet router (role.getD []) ccrFormat
    else if !jsTruthyOpt role then setAllRoles router ccrFormat
    else router
  ⟨some router2, config.rest⟩

/- The two-provider demo catalog named by the spec (section 8) and claim
   C3. -/
def demoProviders : List ProviderCfg :=
  [ProviderCfg.mk (str "glm") [str "glm-5"],
   ProviderCfg.mk (str "minimax") [str "MiniMax-M2.5"]]

/- A cache-file state for the session-discovery walk: a stale record at
   PID 4 (owner 4 dead) and a live record at its ancestor PID 9. -/
def c2Files (p : Nat) : CacheFile :=
  if p = 4 then CacheFile.stored (CacheRecord.mk (str "s1") 4)
  else if p = 9 then CacheFile.stored (CacheRecord.mk (str "s2") 9)
  else CacheFile.absent

/- Ancestry for the same scenario: the parent of PID 4 is PID 9. -/
def c2Parent (p : Nat) : Option Nat :=
  if p = 4 then some 9 else none

/- Liveness for the same scenario: only PID 9 is alive. -/
def c2Alive (p : Nat) : Bool := p == 9

/- Two providers that both carry a model named "m-1": used to probe the
   alias-collision policy of buildDynamicAliases. -/
def c4Providers : List ProviderCfg :=
  [ProviderCfg.mk (str "a") [str "m-1"],
   ProviderCfg.mk (str "b") [str "m-1"]]

/- The adoption test getEffectiveRouter applies to a layer file: parsed,
   Router present, and at least one role value truthy (non-empty). -/
def routerSomeTruthyValue (f : LayerFile) : Bool :=
  match f with
  | LayerFile.parsed (some r) => r.any (fun p => !p.2.isEmpty)
  | _ => false

/- The adoption test getEffectiveConfig applies to a layer file: parsed,
   Router present, and at least one key (values are not inspected). -/
def routerSomeKey (f : LayerFile) : Bool :=
  match f with
  | LayerFile.parsed (some r) => !r.isEmpty
  | _ => false

/- Membership facts about the Set.add model. -/
theorem mem_addAlias_self (s : List Str) (a : Str) : a ∈ addAlias s a := by
  unfold addAlias
  split
  case isTrue h => exact h
  case isFalse h => exact List.mem_append_right s (List.mem_singleton.mpr rfl)

theorem mem_addAlias_of_mem {s : List Str} {b : Str} (a : Str) (hb : b ∈ s) :
    b ∈ addAlias s a := by
  unfold addAlias
  split
  case isTrue h => exact hb
  case isFalse h => exact List.mem_append_left _ hb

theorem mem_foldl_addAlias_of_mem {b : Str} (l : List Str) {s : List Str} (hb : b ∈ s) :
    b ∈ l.foldl addAlias s := by
  induction l generalizing s with
  | nil => exact hb
  | cons a t ih => exact ih (mem_addAlias_of_mem a hb)

theorem mem_foldl_addAlias_of_mem_list {b : Str} {l : List Str} (s : List Str) (hb : b ∈ l) :
    b ∈ l.foldl addAlias s := by
  induction l generalizing s with
  | nil => cases hb
  | cons a t ih =>
    rcases List.mem_cons.mp hb with rfl | hb2
    · exact mem_foldl_addAlias_of_mem t (mem_addAlias_self s b)
    · exact ih _ hb2

/- Stable descending sort: membership, sortedness, stability. -/
theorem mem_insertDescBy {α β : Type} [LinearOrder β] (key : α → β) (x a : α) :
    ∀ l : List α, a ∈ insertDescBy key x l ↔ a = x ∨ a ∈ l := by
  intro l
  induction l with
  | nil => simp [insertDescBy]
  | cons y ys ih =>
    unfold insertDescBy
    split
    · simp [List.mem_cons]
    · simp only [List.mem_cons, ih]
      tauto

theorem pairwise_insertDescBy {α β : Type} [LinearOrder β] (key : α → β) (x : α)
    {l : List α} (hl : l.Pairwise (fun a b => key b ≤ key a)) :
    (insertDescBy key x l).Pairwise (fun a b => key b ≤ key a) := by
  induction l with
  | nil => simp [insertDescBy]
  | cons y ys ih =>
    rcases List.pairwise_cons.mp hl with ⟨hy, hys⟩
    unfold insertDescBy
    split
    case isTrue h =>
      refine List.pairwise_cons.mpr ⟨?_, hl⟩
      intro b hb
      rcases List.mem_cons.mp hb with rfl | hb2
      · exact h
      · exact le_trans (hy b hb2) h
    case isFalse h =>
      refine List.pairwise_cons.mpr ⟨?_, ih hys⟩
      intro b hb
      rcases (mem_insertDescBy key x b ys).mp hb with rfl | hb2
      · exact le_of_lt (lt_of_not_le h)
      · exact hy b hb2

theorem sortDescBy_pairwise {α β : Type} [LinearOrder β] (key : α → β) :
    ∀ l : List α, (sortDescBy key l).Pairwise (fun a b => key b ≤ key a) := by
  intro l
  induction l with
  | nil => simp [sortDescBy]
  | cons x xs ih => exact pairwise_insertDescBy key x ih

theorem mem_sortDescBy {α β : Type} [LinearOrder β] (key : α → β) (a : α) :
    ∀ l : List α, a ∈ sortDescBy key l ↔ a ∈ l := by
  intro l
  induction l with
  | nil => simp [sortDescBy]
  | cons x xs ih =>
    unfold sortDescBy
    rw [mem_insertDescBy, ih, List.mem_cons]

theorem filter_insertDescBy {α β : Type} [LinearOrder β] (key : α → β) (x : α)
    (q : β) (l : List α) :
    (insertDescBy key x l).filter (fun y => decide (key y = q)) =
      (if key x = q then [x] else []) ++ l.filter (fun y => decide (key y = q)) := by
  induction l with
  | nil =>
    by_cases hx : key x = q <;> simp [insertDescBy, hx]
  | cons y ys ih =>
    unfold insertDescBy
    split
    case isTrue h =>
      by_cases hx : key x = q <;> by_cases hy : key y = q <;>
        simp [List.filter_cons, hx, hy]
    case isFalse h =>
      rw [List.filter_cons, List.filter_cons, ih]
      by_cases hy : key y = q
      · have hx : ¬ key x = q := by
          intro hxq
          exact h (le_of_eq (hy.trans hxq.symm))
        simp [hy, hx]
      · simp [hy]

theorem filter_sortDescBy {α β : Type} [LinearOrder β] (key : α → β) (q : β) :
    ∀ l : List α,
      (sortDescBy key l).filter (fun y => decide (key y = q)) =
        l.filter (fun y => decide (key y = q)) := by
  intro l
  induction l with
  | nil => rfl
  | cons x xs ih =>
    unfold sortDescBy
    rw [filter_insertDescBy, ih, List.filter_cons]
    by_cases hx : key x = q
    · simp [hx]
    · simp [hx]

theorem sortDescBy_eq_nil_iff {α β : Type} [LinearOrder β] (key : α → β) (l : List α) :
    sortDescBy key l = [] ↔ l = [] := by
  cases l with
  | nil => simp [sortDescBy]
  | cons x xs =>
    simp only [sortDescBy]
    constructor
    · intro h
      have := (mem_insertDescBy key x x (sortDescBy key xs)).mpr (Or.inl rfl)
      rw [h] at this
      cases this
    · intro h
      cases h

theorem headD_sortDescBy_mem {α β : Type} [LinearOrder β] (key : α → β)
    {l : List α} (hne : l ≠ []) (d : α) : (sortDescBy key l).headD d ∈ l := by
  have hs : sortDescBy key l ≠ [] := fun h => hne ((sortDescBy_eq_nil_iff key l).mp h)
  cases hsl : sortDescBy key l with
  | nil => exact absurd hsl hs
  | cons h t =>
    have : h ∈ sortDescBy key l := by
      rw [hsl]
      exact List.mem_cons_self h t
    simpa [hsl] using (mem_sortDescBy key h l).mp this

theorem key_le_headD_sortDescBy {α β : Type} [LinearOrder β] (key : α → β)
    {l : List α} {x : α} (hx : x ∈ l) (d : α) :
    key x ≤ key ((sortDescBy key l).headD d) := by
  have hxs : x ∈ sortDescBy key l := (mem_sortDescBy key x l).mpr hx
  cases hsl : sortDescBy key l with
  | nil =>
    rw [hsl] at hxs
    cases hxs
  | cons h t =>
    rw [hsl] at hxs
    have hp := sortDescBy_pairwise key l
    rw [hsl] at hp
    rcases List.mem_cons.mp hxs with rfl | hxt
    · simp [hsl]
    · have := (List.pairwise_cons.mp hp).1 x hxt
      simpa [hsl] using this

/- JS-object write lemmas. -/
theorem objGet_objSet_self {β : Type} (m : List (Str × β)) (k : Str) (v : β) :
    objGet (objSet m k v) k = some v := by
  induction m with
  | nil => simp [objSet, objGet]
  | cons p t ih =>
    obtain ⟨k2, v2⟩ := p
    unfold objSet
    split
    case isTrue h => simp [objGet]
    case isFalse h => simpa [objGet, h] using ih

theorem objGet_objSet_ne {β : Type} (m : List (Str × β)) {k k2 : Str} (v : β)
    (hne : k2 ≠ k) : objGet (objSet m k v) k2 = objGet m k2 := by
  induction m with
  | nil => simp [objSet, objGet, Ne.symm hne]
  | cons p t ih =>
    obtain ⟨k3, v3⟩ := p
    unfold objSet
    split
    case isTrue h =>
      subst h
      simp [objGet, Ne.symm hne]
    case isFalse h =>
      by_cases h2 : k3 = k2 <;> simp [objGet, h2, ih]

theorem objGet_objSetIfFalsy_of_nonempty {m : List (Str × Str)} {k w : Str}
    (k2 v : Str) (hk : objGet m k = some w) (hw : ¬w.isEmpty) :
    objGet (objSetIfFalsy m k2 v) k = some w := by
  unfold objSetIfFalsy
  by_cases he : k2 = k
  · subst he
    rw [hk]
    simpa [hw] using hk
  · have hne : k ≠ k2 := Ne.symm he
    cases hg : objGet m k2 with
    | none =>
      dsimp only
      rw [objGet_objSet_ne m v hne]
      exact hk
    | some w2 =>
      dsimp only
      by_cases hw2 : w2.isEmpty
      · rw [if_pos hw2, objGet_objSet_ne m v hne]
        exact hk
      · rw [if_neg hw2]
        exact hk

theorem objGet_foldl_objSetIfFalsy_of_nonempty {k w : Str} (l : List Str)
    (fn : Str) {m : List (Str × Str)} (hk : objGet m k = some w) (hw : ¬w.isEmpty) :
    objGet (l.foldl (fun acc a => objSetIfFalsy acc a fn) m) k = some w := by
  induction l generalizing m with
  | nil => exact hk
  | cons a t ih => exact ih (objGet_objSetIfFalsy_of_nonempty a fn hk hw)

/- The alias generator only ever appends: membership is monotone through
   every block. -/
theorem mem_gmaVersionAliases_of_mem {b : Str} (parts : List Str) {s : List Str}
    (hb : b ∈ s) : b ∈ gmaVersionAliases parts s := by
  unfold gmaVersionAliases
  dsimp only
  split_ifs
  · exact mem_addAlias_of_mem _ (mem_addAlias_of_mem _ (mem_addAlias_of_mem _ (mem_addAlias_of_mem _ hb)))
  · exact mem_addAlias_of_mem _ (mem_addAlias_of_mem _ hb)
  · exact hb

theorem mem_gmaSeriesAliases_of_mem {b : Str} (parts : List Str) {s : List Str}
    (hb : b ∈ s) : b ∈ gmaSeriesAliases parts s := by
  unfold gmaSeriesAliases
  dsimp only
  split_ifs
  · exact mem_addAlias_of_mem _ (mem_addAlias_of_mem _ (mem_addAlias_of_mem _ hb))
  · exact mem_addAlias_of_mem _ hb
  · exact hb

theorem mem_gmaTwoPartAliases_of_mem {b : Str} (parts : List Str) {s : List Str}
    (hb : b ∈ s) : b ∈ gmaTwoPartAliases parts s := by
  unfold gmaTwoPartAliases
  split_ifs
  · exact mem_addAlias_of_mem _ (mem_addAlias_of_mem _ hb)
  · exact hb

theorem mem_gmaAbbrevs_of_mem {b : Str} (parts : List Str) {s : List Str}
    (hb : b ∈ s) : b ∈ gmaAbbrevs parts s := by
  unfold gmaAbbrevs
  dsimp only
  refine mem_gmaTwoPartAliases_of_mem parts (mem_gmaSeriesAliases_of_mem parts (mem_gmaVersionAliases_of_mem parts ?_))
  split_ifs
  · exact mem_addAlias_of_mem _ hb
  · exact hb

/- The initialism is always inserted by the abbreviation block when it has
   at least two characters. -/
theorem joinFirsts_mem_gmaAbbrevs (parts : List Str) (s : List Str)
    (h : 2 ≤ (joinFirsts parts).length) : joinFirsts parts ∈ gmaAbbrevs parts s := by
  unfold gmaAbbrevs
  dsimp only
  refine mem_gmaTwoPartAliases_of_mem parts (mem_gmaSeriesAliases_of_mem parts (mem_gmaVersionAliases_of_mem parts ?_))
  rw [if_pos h]
  exact mem_addAlias_self s (joinFirsts parts)

theorem mem_generateModelAliases_of_mem_gmaPreDots {b : Str} {modelName : Str}
    (hb : b ∈ gmaPreDots modelName) : b ∈ generateModelAliases modelName := by
  unfold generateModelAliases
  dsimp only
  split_ifs
  · exact mem_addAlias_of_mem _ (mem_addAlias_of_mem _ (mem_addAlias_of_mem _ (mem_foldl_addAlias_of_mem _ hb)))
  · exact mem_addAlias_of_mem _ (mem_foldl_addAlias_of_mem _ hb)

/- Every token produced by splitTokens is non-empty. -/
theorem splitTokens_ne_nil {p : Char → Bool} {s : Str} {t : Str}
    (ht : t ∈ splitTokens p s) : t ≠ [] := by
  unfold splitTokens at ht
  have := List.of_mem_filter ht
  simpa [List.isEmpty_iff] using this

/- The initialism has one character per token when all tokens are
   non-empty. -/
theorem joinFirsts_length {parts : List Str} (h : ∀ p ∈ parts, p ≠ []) :
    (joinFirsts parts).length = parts.length := by
  induction parts with
  | nil => rfl
  | cons p t ih =>
    have hp : p ≠ [] := h p (List.mem_cons_self p t)
    have ht : ∀ q ∈ t, q ≠ [] := fun q hq => h q (List.mem_cons_of_mem p hq)
    cases p with
    | nil => exact absurd rfl hp
    | cons c cs => simp [joinFirsts, List.take, ih ht] at ih ⊢; exact ih ht

/-- C2 counterexample: with a stale cache record at the starting ancestor
(PID 4, owner dead) and a live record at the next ancestor (PID 9), the
walk deletes the stale file but returns no session id — it does not
continue to PID 9 as the claim states. -/
theorem c2_counterexample :
    getSessionIdFromCache true c2Files c2Parent c2Alive 4 = (none, [4]) ∧
    (getSessionIdFromCache true c2Files c2Parent c2Alive 4).1 ≠ some (str "s2") := by
  constructor
  · decide
  · decide

/-- C2 (amended): when the ancestry walk of getSessionIdFromCache reaches
a PID holding a parsed cache record within the hop bound, a dead recorded
owner makes it delete that stale file and terminate with no session id
(higher ancestors are not consulted), while a live owner makes it return
the recorded session id without deleting anything. -/
theorem c2_theorem : ∀ (files : Nat → CacheFile) (parentOf : Nat → Option Nat)
    (alive : Nat → Bool) (fuel pid : Nat) (r : CacheRecord),
    1 < pid → files pid = CacheFile.stored r →
    (alive r.pid = false → cacheWalk files parentOf alive (fuel + 1) pid = (none, [pid]))
    ∧ (alive r.pid = true →
        cacheWalk files parentOf alive (fuel + 1) pid = (some r.session_id, [])) := by
  intro files parentOf alive fuel pid r hpid hf
  have hnle : ¬pid ≤ 1 := Nat.not_le.mpr hpid
  constructor <;> intro ha <;> simp [cacheWalk, hnle, hf, ha]

/-- C2 witness: the amended theorem applied to a concrete stale record at
PID 3 with four remaining hops. -/
theorem c2_witness :
    cacheWalk (fun p => if p = 3 then CacheFile.stored (CacheRecord.mk (str "sx") 3) else CacheFile.absent)
      (fun _ => none) (fun _ => false) 5 3 = (none, [3]) :=
  (c2_theorem (fun p => if p = 3 then CacheFile.stored (CacheRecord.mk (str "sx") 3) else CacheFile.absent)
    (fun _ => none) (fun _ => false) 4 3 (CacheRecord.mk (str "sx") 3)
    (by decide) (by decide)).1 rfl

/-- C7 counterexample: with the environment variable set to the empty
string (a set, but falsy, value) and a successful cache walk, the resolver
returns the cache result tagged cache, not the environment result tagged
env as the claim states. -/
theorem c7_counterexample :
    resolveSessionId (some []) (some (str "s")) none =
      some (str "s", SessionSource.cache) := by
  decide

/-- C7 (amended): resolveSessionId returns the environment identifier
tagged env whenever the environment variable is set to a non-empty value,
regardless of the other strategies; the cache result tagged cache when the
environment value is falsy and the cache walk yields a non-empty id; the
mtime result tagged mtime only when both earlier strategies yield falsy
values; and none when all three do. -/
theorem c7_theorem : ∀ envVar cachedId mtimeId : Option Str,
    (∀ v : Str, envVar = some v → v ≠ [] →
      resolveSessionId envVar cachedId mtimeId = some (v, SessionSource.env))
    ∧ (jsTruthyOpt envVar = false → ∀ c : Str, cachedId = some c → c ≠ [] →
      resolveSessionId envVar cachedId mtimeId = some (c, SessionSource.cache))
    ∧ (jsTruthyOpt envVar = false → jsTruthyOpt cachedId = false →
      ∀ m : Str, mtimeId = some m → m ≠ [] →
      resolveSessionId envVar cachedId mtimeId = some (m, SessionSource.mtime))
    ∧ (jsTruthyOpt envVar = false → jsTruthyOpt cachedId = false →
      jsTruthyOpt mtimeId = false →
      resolveSessionId envVar cachedId mtimeId = none) := by
  intro envVar cachedId mtimeId
  refine ⟨?_, ?_, ?_, ?_⟩
  · intro v hv hne
    subst hv
    have ht : jsTruthyOpt (some v) = true := by
      simp [jsTruthyOpt, List.isEmpty_iff, hne]
    simp [resolveSessionId, ht]
  · intro he c hc hne
    subst hc
    have ht : jsTruthyOpt (some c) = true := by
      simp [jsTruthyOpt, List.isEmpty_iff, hne]
    simp [resolveSessionId, he, ht]
  · intro he hc m hm hne
    subst hm
    have ht : jsTruthyOpt (some m) = true := by
      simp [jsTruthyOpt, List.isEmpty_iff, hne]
    simp [resolveSessionId, he, hc, ht]
  · intro he hc hm
    simp [resolveSessionId, he, hc, hm]

/-- C7 witness: the amended theorem applied at concrete inputs for each of
the four branches. -/
theorem c7_witness :
    resolveSessionId (some (str "e")) (some (str "c")) (some (str "m")) =
        some (str "e", SessionSource.env)
    ∧ resolveSessionId none (some (str "c")) (some (str "m")) =
        some (str "c", SessionSource.cache)
    ∧ resolveSessionId none none (some (str "m")) =
        some (str "m", SessionSource.mtime)
    ∧ resolveSessionId none none none = none :=
  ⟨(c7_theorem (some (str "e")) (some (str "c")) (some (str "m"))).1
      (str "e") rfl (by decide),
   (c7_theorem none (some (str "c")) (some (str "m"))).2.1 rfl
      (str "c") rfl (by decide),
   (c7_theorem none none (some (str "m"))).2.2.1 rfl rfl
      (str "m") rfl (by decide),
   (c7_theorem none none none).2.2.2 rfl rfl rfl⟩

/-- C9 counterexample: for the model name "glm-4.5" the generated alias
set does not contain "glm-45", the dot-stripped variant of the lowercase
original — the lowercase original is only added after the dot-stripping
step — although it does contain the lowercase original itself. -/
theorem c9_counterexample :
    str "glm-45" ∉ generateModelAliases (str "glm-4.5") ∧
    str "glm-4.5" ∈ generateModelAliases (str "glm-4.5") := by
  constructor
  · decide
  · decide

/-- C9 (amended): the output of generateModelAliases contains the
dot-stripped variant of every alias accumulated through the steps before
the dot-stripping step (the no-separator form and the abbreviation
aliases); the lowercase original and the separator variants are added
after that step, so their dot-stripped variants are not included. -/
theorem c9_theorem : ∀ (modelName a : Str), a ∈ gmaPreDots modelName →
    stripDots a ∈ generateModelAliases modelName := by
  intro name a ha
  have h2 : stripDots a ∈ ((gmaPreDots name).map stripDots).foldl addAlias (gmaPreDots name) :=
    mem_foldl_addAlias_of_mem_list _ (List.mem_map_of_mem stripDots ha)
  unfold generateModelAliases
  dsimp only
  split_ifs
  · exact mem_addAlias_of_mem _ (mem_addAlias_of_mem _ (mem_addAlias_of_mem _ h2))
  · exact mem_addAlias_of_mem _ h2

/-- C9 witness: the amended theorem applied to "glm-4.5" and its
accumulated alias "glm4.5", whose dot-stripped variant "glm45" is in the
output. -/
theorem c9_witness : str "glm45" ∈ generateModelAliases (str "glm-4.5") :=
  c9_theorem (str "glm-4.5") (str "glm4.5") (by decide)

/-- C3 counterexample: for the demo catalog and the query "g5" the sole
result is glm/glm-5 with score 100 (the normalized query resolves through
the dynamic alias map, rule 1), not 92 via the alias-set rule as the
claim states; and for "m2.5" the sole result carries score 85 from the
separator-stripped substring rule, not an alias match. -/
theorem c3_counterexample :
    (fuzzyMatch demoProviders (getAllModels demoProviders) (str "g5")).map
        (fun s => (s.entry.fullName, s.score)) = [(str "glm/glm-5", 100)]
    ∧ (fuzzyMatch demoProviders (getAllModels demoProviders) (str "m2.5")).map
        (fun s => (s.entry.fullName, s.score)) = [(str "minimax/MiniMax-M2.5", 85)]
    ∧ (100 : Nat) ≠ 92 := by
  refine ⟨?_, ?_, ?_⟩
  · decide
  · decide
  · decide

/-- C3 (amended): for the demo catalog, "g5" ranks glm/glm-5 first with
score 100 (alias-map match), "m2.5" ranks minimax/MiniMax-M2.5 first with
score 85 (separator-stripped substring match), and the exact query
"glm/glm-5" scores 100 on the exact candidate. -/
theorem c3_theorem :
    (fuzzyMatch demoProviders (getAllModels demoProviders) (str "g5")).map
        (fun s => (s.entry.fullName, s.score)) = [(str "glm/glm-5", 100)]
    ∧ (fuzzyMatch demoProviders (getAllModels demoProviders) (str "m2.5")).map
        (fun s => (s.entry.fullName, s.score)) = [(str "minimax/MiniMax-M2.5", 85)]
    ∧ (fuzzyMatch demoProviders (getAllModels demoProviders) (str "glm/glm-5")).map
        (fun s => (s.entry.fullName, s.score)) = [(str "glm/glm-5", 100)] := by
  refine ⟨?_, ?_, ?_⟩
  · decide
  · decide
  · decide

/-- C4 counterexample: in the alias map built from two providers that both
carry a model "m-1", the alias "m-1" is claimed by the first entry (it
maps to a/m-1 after the first provider alone) but ends bound to b/m-1:
the later entry's unconditional direct write overwrote it. -/
theorem c4_counterexample :
    objGet (buildDynamicAliases [ProviderCfg.mk (str "a") [str "m-1"]]).1 (str "m-1") =
        some (str "a/m-1")
    ∧ objGet (buildDynamicAliases c4Providers).1 (str "m-1") = some (str "b/m-1")
    ∧ str "a/m-1" ≠ str "b/m-1" := by
  refine ⟨?_, ?_, ?_⟩
  · decide
  · decide
  · decide

/-- C4 (amended): when a later catalog entry is folded into the alias map,
every existing non-empty binding survives except at the entry's two direct
keys — the lowercase model name and its no-separator form — which are
written unconditionally, so for those two keys the last entry claiming
them wins. -/
theorem c4_theorem : ∀ (m : List (Str × Str)) (pName model k w : Str),
    (objGet m k = some w → ¬w.isEmpty = true → k ≠ toLowerStr model →
      k ≠ removeChars isSepChar (toLowerStr model) →
      objGet (addModelAliases pName m model) k = some w)
    ∧ objGet (addModelAliases pName m model) (removeChars isSepChar (toLowerStr model)) =
        some (pName ++ '/' :: model)
    ∧ (toLowerStr model ≠ removeChars isSepChar (toLowerStr model) →
      objGet (addModelAliases pName m model) (toLowerStr model) =
        some (pName ++ '/' :: model)) := by
  intro m pName model k w
  refine ⟨?_, ?_, ?_⟩
  · intro hk hw hne1 hne2
    unfold addModelAliases
    dsimp only
    rw [objGet_objSet_ne _ _ hne2, objGet_objSet_ne _ _ hne1]
    exact objGet_foldl_objSetIfFalsy_of_nonempty _ _ hk hw
  · unfold addModelAliases
    dsimp only
    exact objGet_objSet_self _ _ _
  · intro hne
    unfold addModelAliases
    dsimp only
    rw [objGet_objSet_ne _ _ hne]
    exact objGet_objSet_self _ _ _

/-- C4 witness: the amended theorem applied to a concrete map holding a
binding for "x" while the entry (b, m-1) is folded in: "x" survives, but
the direct keys "m1" and "m-1" are rebound to b/m-1. -/
theorem c4_witness :
    objGet (addModelAliases (str "b") [(str "x", str "a/x")] (str "m-1")) (str "x") =
        some (str "a/x")
    ∧ objGet (addModelAliases (str "b") [(str "x", str "a/x")] (str "m-1")) (str "m1") =
        some (str "b/m-1")
    ∧ objGet (addModelAliases (str "b") [(str "x", str "a/x")] (str "m-1")) (str "m-1") =
        some (str "b/m-1") :=
  ⟨(c4_theorem [(str "x", str "a/x")] (str "b") (str "m-1") (str "x") (str "a/x")).1
      (by decide) (by decide) (by decide) (by decide),
   (c4_theorem [(str "x", str "a/x")] (str "b") (str "m-1") (str "x") (str "a/x")).2.1,
   (c4_theorem [(str "x", str "a/x")] (str "b") (str "m-1") (str "x") (str "a/x")).2.2
      (by decide)⟩

/-- C10: for a parsed global configuration and a valid role r, the
document written back by setModel differs from the one read only at
Router[r]: the role is bound to the chosen "provider,model" string, every
other Router role reads unchanged, and every top-level field outside
Router is preserved. -/
theorem c10_theorem : ∀ (α : Type) (config : CCRDoc α) (r v : Str),
    r ∈ validRoles →
    (setModelUpdate config (some r) v).rest = config.rest
    ∧ objGet ((setModelUpdate config (some r) v).Router.getD []) r = some v
    ∧ ∀ r2 : Str, r2 ≠ r →
      objGet ((setModelUpdate config (some r) v).Router.getD []) r2 =
        objGet (config.Router.getD []) r2 := by
  intro α config r v hr
  have hne : r.isEmpty = false := by
    simp only [validRoles, str, List.mem_cons, List.not_mem_nil, or_false] at hr
    rcases hr with rfl | rfl | rfl | rfl | rfl | rfl <;> decide
  have hcond : (jsTruthyOpt (some r) && decide ((some r).getD [] ∈ validRoles)) = true := by
    simp [jsTruthyOpt, hne, hr]
  refine ⟨rfl, ?_, ?_⟩
  · show objGet ((setModelUpdate config (some r) v).Router.getD []) r = some v
    unfold setModelUpdate
    dsimp only
    rw [hcond]
    simp only [if_true]
    exact objGet_objSet_self _ _ _
  · intro r2 hr2
    unfold setModelUpdate
    dsimp only
    rw [hcond]
    simp only [if_true]
    exact objGet_objSet_ne _ _ hr2

/-- C10 witness: the theorem applied to a concrete document with role
think: the think role is rebound, default is untouched, and the non-Router
payload survives. -/
theorem c10_witness :
    (setModelUpdate (CCRDoc.mk (some [(str "default", str "a,b")]) 7)
        (some (str "think")) (str "c,d")).rest = 7
    ∧ objGet ((setModelUpdate (CCRDoc.mk (some [(str "default", str "a,b")]) 7)
        (some (str "think")) (str "c,d")).Router.getD []) (str "think") = some (str "c,d")
    ∧ objGet ((setModelUpdate (CCRDoc.mk (some [(str "default", str "a,b")]) 7)
        (some (str "think")) (str "c,d")).Router.getD []) (str "default") =
      objGet ((CCRDoc.mk (some [(str "default", str "a,b")]) 7 : CCRDoc Nat).Router.getD [])
        (str "default") :=
  ⟨(c10_theorem Nat (CCRDoc.mk (some [(str "default", str "a,b")]) 7)
      (str "think") (str "c,d") (by decide)).1,
   (c10_theorem Nat (CCRDoc.mk (some [(str "default", str "a,b")]) 7)
      (str "think") (str "c,d") (by decide)).2.1,
   (c10_theorem Nat (CCRDoc.mk (some [(str "default", str "a,b")]) 7)
      (str "think") (str "c,d") (by decide)).2.2 (str "default") (by decide)⟩

/-- C5: for every provider registry, candidate list and query, every
element of the fuzzyMatch result has score strictly greater than 0, the
result is sorted by score in non-increasing order, candidates of equal
score keep their original catalog order (the order of the filtered scored
list), and when no candidate scores positively the result is the empty
list rather than an error. -/
theorem c5_theorem : ∀ (providers : List ProviderCfg) (models : List ModelEntry)
    (query : Str),
    (∀ s ∈ fuzzyMatch providers models query, 0 < s.score)
    ∧ (fuzzyMatch providers models query).Pairwise (fun a b => b.score ≤ a.score)
    ∧ (∀ q : Nat,
        (fuzzyMatch providers models query).filter (fun s => decide (s.score = q)) =
          ((scoredList providers models query).filter (fun s => decide (0 < s.score))).filter
            (fun s => decide (s.score = q)))
    ∧ ((∀ s ∈ scoredList providers models query, s.score = 0) →
        fuzzyMatch providers models query = []) := by
  intro providers models query
  refine ⟨?_, ?_, ?_, ?_⟩
  · intro s hs
    unfold fuzzyMatch at hs
    have hmem := (mem_sortDescBy (fun s : Scored => s.score) s _).mp hs
    have hdec := List.of_mem_filter hmem
    simpa using hdec
  · unfold fuzzyMatch
    exact sortDescBy_pairwise (fun s : Scored => s.score) _
  · intro q
    unfold fuzzyMatch
    exact filter_sortDescBy (fun s : Scored => s.score) q _
  · intro hall
    have hnil : (scoredList providers models query).filter (fun s => decide (0 < s.score)) = [] := by
      rw [List.filter_eq_nil_iff]
      intro a ha
      simp [hall a ha]
    unfold fuzzyMatch
    rw [hnil]
    rfl

/-- C5 witness: the theorem applied to the demo catalog — the query "zzz"
matches nothing and yields the empty list, and every result for "g5" has
a positive score. -/
theorem c5_witness :
    fuzzyMatch demoProviders (getAllModels demoProviders) (str "zzz") = []
    ∧ (∀ s ∈ fuzzyMatch demoProviders (getAllModels demoProviders) (str "g5"),
        0 < s.score) :=
  ⟨(c5_theorem demoProviders (getAllModels demoProviders) (str "zzz")).2.2.2 (by decide),
   (c5_theorem demoProviders (getAllModels demoProviders) (str "g5")).1⟩

/-- C8: for every input name, the alias set generated by
generateModelAliases contains the lowercase form and the no-separator
form (the generator is a total function, so it never raises), and for
every name whose lowercase form has at least two non-empty
hyphen/underscore/space-separated tokens it also contains the initialism
built from the first character of every token. -/
theorem c8_theorem : ∀ name : Str,
    toLowerStr name ∈ generateModelAliases name
    ∧ removeChars isSepChar (toLowerStr name) ∈ generateModelAliases name
    ∧ (2 ≤ (splitTokens isSepChar (toLowerStr name)).length →
        joinFirsts (splitTokens isSepChar (toLowerStr name)) ∈ generateModelAliases name) := by
  intro name
  refine ⟨?_, ?_, ?_⟩
  · unfold generateModelAliases
    dsimp only
    split_ifs
    · exact mem_addAlias_of_mem _ (mem_addAlias_of_mem _ (mem_addAlias_self _ _))
    · exact mem_addAlias_self _ _
  · apply mem_generateModelAliases_of_mem_gmaPreDots
    unfold gmaPreDots
    dsimp only
    split_ifs
    · exact mem_gmaAbbrevs_of_mem _ (mem_addAlias_self _ _)
    · exact mem_addAlias_self _ _
  · intro h2
    apply mem_generateModelAliases_of_mem_gmaPreDots
    unfold gmaPreDots
    dsimp only
    rw [if_pos h2]
    apply joinFirsts_mem_gmaAbbrevs
    have hall : ∀ p ∈ splitTokens isSepChar (toLowerStr name), p ≠ [] :=
      fun p hp => splitTokens_ne_nil hp
    rw [joinFirsts_length hall]
    exact h2

/-- C8 witness: the theorem applied to "glm-5": the lowercase form, the
no-separator form and the two-token initialism are all generated. -/
theorem c8_witness :
    str "glm-5" ∈ generateModelAliases (str "glm-5")
    ∧ str "glm5" ∈ generateModelAliases (str "glm-5")
    ∧ str "g5" ∈ generateModelAliases (str "glm-5") :=
  ⟨(c8_theorem (str "glm-5")).1,
   (c8_theorem (str "glm-5")).2.1,
   (c8_theorem (str "glm-5")).2.2 (by decide)⟩

/-- C6: the projectId lookup encodes the working directory by turning the
leading path separator into a leading dash and every other separator into
a dash ("/home/u/proj" becomes "-home-u-proj"); an exactly-matching known
project name is always returned, taking precedence over the
basename-suffix fallback; otherwise a unique "-basename" suffix candidate
is returned; with several candidates one carrying the maximal dash count
is returned; with none the result is null; and the hook variant
getProjectId agrees with getCurrentProjectId on every non-empty cwd. -/
theorem c6_theorem :
    encodeCwd (str "/home/u/proj") = str "-home-u-proj"
    ∧ (∀ (cwd : Str) (projects : List Str) (isDir : Str → Bool),
        encodeCwd cwd ∈ projects →
        getCurrentProjectId true cwd projects isDir = some (encodeCwd cwd))
    ∧ (∀ (cwd : Str) (projects : List Str) (isDir : Str → Bool) (c : Str),
        encodeCwd cwd ∉ projects → candidatesOf cwd projects isDir = [c] →
        getCurrentProjectId true cwd projects isDir = some c)
    ∧ (∀ (cwd : Str) (projects : List Str) (isDir : Str → Bool),
        encodeCwd cwd ∉ projects → 1 < (candidatesOf cwd projects isDir).length →
        ∃ c : Str, getCurrentProjectId true cwd projects isDir = some c
          ∧ c ∈ candidatesOf cwd projects isDir
          ∧ ∀ d ∈ candidatesOf cwd projects isDir, dashCount d ≤ dashCount c)
    ∧ (∀ (cwd : Str) (projects : List Str) (isDir : Str → Bool),
        encodeCwd cwd ∉ projects → candidatesOf cwd projects isDir = [] →
        getCurrentProjectId true cwd projects isDir = none)
    ∧ (∀ (cwd : Str) (projects : List Str) (isDir : Str → Bool), cwd ≠ [] →
        getProjectId true cwd projects isDir = getCurrentProjectId true cwd projects isDir) := by
  refine ⟨by decide, ?_, ?_, ?_, ?_, ?_⟩
  · intro cwd projects isDir hmem
    simp [getCurrentProjectId, projectIdCore, hmem]
  · intro cwd projects isDir c hmem hc
    simp [getCurrentProjectId, projectIdCore, hmem, hc]
  · intro cwd projects isDir hmem hlen
    have hne : candidatesOf cwd projects isDir ≠ [] := by
      intro h
      rw [h] at hlen
      exact absurd hlen (by decide)
    have hlen1 : ¬(candidatesOf cwd projects isDir).length = 1 := by
      omega
    refine ⟨(sortDescBy (fun p => dashCount p) (candidatesOf cwd projects isDir)).headD [],
      ?_, ?_, ?_⟩
    · simp only [getCurrentProjectId, projectIdCore, if_true]
      rw [if_neg hmem, if_neg hlen1, if_pos hlen]
    · exact headD_sortDescBy_mem (fun p => dashCount p) hne []
    · intro d hd
      exact key_le_headD_sortDescBy (fun p => dashCount p) hd []
  · intro cwd projects isDir hmem hc
    simp [getCurrentProjectId, projectIdCore, hmem, hc]
  · intro cwd projects isDir hcwd
    have hni : cwd.isEmpty = false := by
      simpa [List.isEmpty_iff] using hcwd
    simp [getProjectId, getCurrentProjectId, hni]

/-- C6 witness: the theorem applied at concrete inputs — an exact encoded
match wins, and among two suffix candidates one with the maximal dash
count is selected. -/
theorem c6_witness :
    getCurrentProjectId true (str "/a/b") [str "-a-b"] (fun _ => true) = some (str "-a-b")
    ∧ (∃ c : Str,
        getCurrentProjectId true (str "/p/b") [str "-q-b", str "-a-q-b"] (fun _ => true) =
          some c
        ∧ c ∈ candidatesOf (str "/p/b") [str "-q-b", str "-a-q-b"] (fun _ => true)
        ∧ ∀ d ∈ candidatesOf (str "/p/b") [str "-q-b", str "-a-q-b"] (fun _ => true),
            dashCount d ≤ dashCount c) :=
  ⟨c6_theorem.2.1 (str "/a/b") [str "-a-b"] (fun _ => true) (by decide),
   c6_theorem.2.2.2.1 (str "/p/b") [str "-q-b", str "-a-q-b"] (fun _ => true)
     (by decide) (by decide)⟩

/-- C1 counterexample: a project Router whose only key maps to the empty
string wins the project layer in getEffectiveConfig (which only counts
keys), even though the hook resolver getEffectiveRouter skips it; the
claim that such a layer never wins is false for getEffectiveConfig. -/
theorem c1_counterexample :
    (getEffectiveConfig (some (some [(str "default", str "glm,glm-5")]))
        (some (str "-p")) none
        (LayerFile.parsed (some [(str "default", [])])) LayerFile.absent).level =
      Level.projectL
    ∧ (getEffectiveRouter (some (some [(str "default", str "glm,glm-5")]))
        none (some (str "-p"))
        (LayerFile.parsed (some [(str "default", [])])) LayerFile.absent).level =
      Level.globalL := by
  constructor
  · decide
  · decide

/-- C1 (amended): getEffectiveRouter (session-start.js) adopts a layer
exactly when the identifiers are truthy and the layer parses with a
Router mapping at least one role to a non-empty value, falling through to
the next-lower layer otherwise; getEffectiveConfig (ccr-model.js) instead
adopts a layer exactly when the identifiers are truthy and the parsed
Router object has at least one key, so a Router whose keys all map to
empty strings does win the layer there. -/
theorem c1_theorem : ∀ (g : Option (Option RouterObj)) (pid sid : Option Str)
    (pf sf : LayerFile),
    (getEffectiveRouter g sid pid pf sf).level =
      (if jsTruthyOpt pid && jsTruthyOpt sid && routerSomeTruthyValue sf then Level.sessionL
       else if jsTruthyOpt pid && routerSomeTruthyValue pf then Level.projectL
       else Level.globalL)
    ∧ (getEffectiveConfig g pid sid pf sf).level =
      (if jsTruthyOpt pid && jsTruthyOpt sid && routerSomeKey sf then Level.sessionL
       else if jsTruthyOpt pid && routerSomeKey pf then Level.projectL
       else Level.globalL) := by
  intro g pid sid pf sf
  constructor
  · rcases pf with _ | _ | (_ | rp) <;> rcases sf with _ | _ | (_ | rs) <;>
      by_cases hp : jsTruthyOpt pid <;> by_cases hs : jsTruthyOpt sid <;>
      first
        | (cases hrp : rp.any (fun p => !p.2.isEmpty) <;>
           first
             | (cases hrs : rs.any (fun p => !p.2.isEmpty) <;>
                simp [getEffectiveRouter, routerSomeTruthyValue, hp, hs, hrp, hrs])
             | simp [getEffectiveRouter, routerSomeTruthyValue, hp, hs, hrp])
        | (cases hrs : rs.any (fun p => !p.2.isEmpty) <;>
           simp [getEffectiveRouter, routerSomeTruthyValue, hp, hs, hrs])
        | simp [getEffectiveRouter, routerSomeTruthyValue, hp, hs]
  · rcases pf with _ | _ | (_ | rp) <;> rcases sf with _ | _ | (_ | rs) <;>
      by_cases hp : jsTruthyOpt pid <;> by_cases hs : jsTruthyOpt sid <;>
      first
        | (cases hrp : rp.isEmpty <;>
           first
             | (cases hrs : rs.isEmpty <;>
                simp [getEffectiveConfig, routerSomeKey, hp, hs, hrp, hrs])
             | simp [getEffectiveConfig, routerSomeKey, hp, hs, hrp])
        | (cases hrs : rs.isEmpty <;>
           simp [getEffectiveConfig, routerSomeKey, hp, hs, hrs])
        | simp [getEffectiveConfig, routerSomeKey, hp, hs]
